import Mathlib

/-!
Verification of the radar-sweep core of the WhatPlaneIsThat terminal radar.

The repository contains several evolutionary snapshots of the same Go
program.  We shallowly embed the functions the claims are about:

* namespace `MainGo` — definitions from `main.go` (the bubbletea
  stand-alone snapshot);
* namespace `Srv`    — definitions from the SSH-server snapshot
  (`unnamed/part_001`, second document; same code appears in
  `unnamed/part_002`);
* namespace `Radar`  — definitions from `radar.go` (the refactored
  renderer used together with the server snapshot).

Modelling conventions:

* Go `float64` values are modelled as real numbers (`ℝ`); concrete float
  literals are modelled by their exact rational values.
* Go `int` is modelled as `ℤ` (no overflow occurs at the magnitudes the
  program uses).
* Go's `int(x)` float-to-int conversion truncates toward zero; it is
  modelled by `intTrunc` (on `ℝ`) and `intTruncQ` (on `ℚ`).
* Go's `math.Mod(x, y)` returns `x - y*trunc(x/y)` (the sign follows the
  dividend); it is modelled by `goMod`.  The mathematical modulus into
  `[0, y)` used by the specification is modelled by `mathMod`.
* Go's `math.Atan2 y x` is modelled by the argument of the complex
  number `x + i y` (`atan2`), with range `(-π, π]`.
* Boolean tests on floats (`withinSweep`, the paint conditions) are
  modelled as propositions because real-number comparison is not
  decidable; tests on integers stay `Bool`.
-/

open Real

/-- Go `int(q)` conversion for an exact rational float value: truncation
toward zero. -/
def intTruncQ (q : ℚ) : ℤ := if 0 ≤ q then ⌊q⌋ else ⌈q⌉

/-- Go `int(x)` conversion modelled on the reals: truncation toward zero. -/
noncomputable def intTrunc (x : ℝ) : ℤ := if 0 ≤ x then ⌊x⌋ else ⌈x⌉

/-- Go `math.Mod x y`: the remainder `x - y*trunc(x/y)`, whose sign agrees
with the dividend `x`. -/
noncomputable def goMod (x y : ℝ) : ℝ := x - y * (intTrunc (x / y) : ℤ)

/-- The mathematical modulus `x mod y ∈ [0, y)` (for `y > 0`) used by the
specification when it writes `(… + 2π) mod 2π`. -/
noncomputable def mathMod (x y : ℝ) : ℝ := x - y * (⌊x / y⌋ : ℤ)

/-- Go `math.Atan2 y x`, modelled as the argument of the complex number
`x + i y`; its range is `(-π, π]`. -/
noncomputable def atan2 (y x : ℝ) : ℝ := Complex.arg ⟨x, y⟩

/-- One grid cell (`type cell` in every snapshot): a displayed character,
a semantic kind (`"blank" | "ring" | "label" | "sweep" | "plane"`) and the
age counter `sweepAge`. -/
structure cell where
  char : Char
  kind : String
  sweepAge : ℤ
deriving DecidableEq

/-- The cell grid (`m.buffer`): rows of cells. -/
abbrev Grid := List (List cell)

/-- An aircraft (`type plane` in `unnamed/part_000`, shared by the server
snapshot and `radar.go`).  Float fields are modelled as exact rationals;
the `RouteInfo` enrichment record is irrelevant to every claim and is
omitted. -/
structure plane where
  Hex : String
  FlightCode : String
  Lat : ℚ
  Lon : ℚ
  Heading : ℚ
  BearingFromObserver : ℚ
  DistanceFromObserver : ℚ
deriving DecidableEq

namespace MainGo

/-- `inBounds` from `main.go` (lines 75–80): strict exclusive bounds on
both edges. -/
def inBounds (width height x y : ℤ) : Bool :=
  if x > 0 ∧ x < width ∧ y > 0 ∧ y < height then true else false

/-- The aging step applied to one cell's `sweepAge` by the `tickMsg`
branch of `Update` in `main.go` (lines 310–317):
`if c.sweepAge < 100 { c.sweepAge = c.sweepAge + 1 }`. -/
def ageCell (a : ℤ) : ℤ := if a < 100 then a + 1 else a

/-- The full aging pass of the `tickMsg` branch: every cell of the buffer
gets `ageCell` applied to its age, character and kind unchanged. -/
def ageAll (g : Grid) : Grid :=
  g.map (fun row => row.map (fun c => ⟨c.char, c.kind, ageCell c.sweepAge⟩))

/-- The sweep-angle advance of the `tickMsg` branch of `Update` in
`main.go` (lines 303–308): `m.sweepAngle += 0.1; if m.sweepAngle >=
2*math.Pi { m.sweepAngle = 0 }`. -/
noncomputable def advanceSweep (angle : ℝ) : ℝ :=
  if 2 * π ≤ angle + 0.1 then 0 else angle + 0.1

/-- `withinSweep` from `main.go` (lines 82–89).  The corrected bearing is
`bearing + northOffset` in this snapshot. -/
noncomputable def withinSweep (bearing sweepAngle width northOffset : ℝ) : Prop :=
  let b := goMod (bearing + northOffset) (2 * π)
  let s := goMod sweepAngle (2 * π)
  goMod (s - b + 2 * π) (2 * π) ≤ width

/-- The bearing computation of `SetPlaneLocationDetails` in `main.go`
(lines 356–378).  Note that this snapshot feeds the degree values
directly into the trigonometric functions (`lat0Rad := m.lat` with no
`* math.Pi / 180`). -/
noncomputable def planeBearing (mLat mLon pLat pLon : ℝ) : ℝ :=
  let lat0Rad := mLat
  let lat1Rad := pLat
  let dLonRad := pLon - mLon
  let y := Real.sin dLonRad * Real.cos lat1Rad
  let x := Real.cos lat0Rad * Real.sin lat1Rad -
    Real.sin lat0Rad * Real.cos lat1Rad * Real.cos dLonRad
  let bearing := atan2 y x
  if bearing < 0 then bearing + 2 * π else bearing

end MainGo

/-- The row type of the flight table: a list of display strings, the
aircraft identifier first. -/
abbrev Row := List String

/-- The index-search loop of `UpdatePlaneRow` (`main.go` lines 121–128):
scan the rows, remembering the index of the *last* row whose first field
equals the identifier, `-1` when there is none.  An empty row's first
field is modelled as `""` (`List.headI`). -/
def lastMatchIndexAux (id : String) : List Row → ℤ → ℤ → ℤ
  | [], _, acc => acc
  | r :: rs, i, acc =>
      lastMatchIndexAux id rs (i + 1) (if r.headI = id then i else acc)

namespace MainGo

/-- The new table row built by `UpdatePlaneRow` in `main.go` (lines
130–135): identifier, then the formatted latitude, longitude and
distance.  The `fmt.Sprintf("%.4f", ·)` float formatter belongs to the
excluded rendering layer and is passed in as a parameter. -/
def mkRow (fmt4 : ℚ → String) (p : plane) : Row :=
  [p.Hex, fmt4 p.Lat, fmt4 p.Lon, fmt4 p.DistanceFromObserver]

/-- `UpdatePlaneRow` from `main.go` (lines 118–148): find the last row
carrying the aircraft's identifier; prepend the fresh row, dropping the
found row when there is one (`append(rows[:index], rows[index+1:]...)`). -/
def UpdatePlaneRow (fmt4 : ℚ → String) (rows : List Row) (p : plane) : List Row :=
  let index := lastMatchIndexAux p.Hex rows 0 (-1)
  let newRow := mkRow fmt4 p
  if index = -1 then
    newRow :: rows
  else
    newRow :: (rows.take index.toNat ++ rows.drop (index.toNat + 1))

end MainGo

namespace Srv

/-- `withinSweep` from the server snapshot (`unnamed/part_001` lines
450–457).  The corrected bearing is `bearing - northOffset` in this
snapshot. -/
noncomputable def withinSweep (bearing sweepAngle width northOffset : ℝ) : Prop :=
  let b := goMod (bearing - northOffset) (2 * π)
  let s := goMod sweepAngle (2 * π)
  goMod (s - b + 2 * π) (2 * π) ≤ width

/-- The bearing computation of `SetPlaneLocationDetails` in the server
snapshot (`unnamed/part_001` lines 745–767): latitudes and the longitude
difference are converted from degrees to radians before the forward
azimuth formula is applied, and the `atan2` result is normalised into
`[0, 2π)` by adding `2π` when it is negative. -/
noncomputable def planeBearing (mLat mLon pLat pLon : ℝ) : ℝ :=
  let lat0Rad := mLat * π / 180
  let lat1Rad := pLat * π / 180
  let dLonRad := (pLon - mLon) * π / 180
  let y := Real.sin dLonRad * Real.cos lat1Rad
  let x := Real.cos lat0Rad * Real.sin lat1Rad -
    Real.sin lat0Rad * Real.cos lat1Rad * Real.cos dLonRad
  let bearing := atan2 y x
  if bearing < 0 then bearing + 2 * π else bearing

end Srv

/-- Modelled from the spec (§4.1): the standard forward-azimuth formula
`atan2(sin(Δlon)·cos(lat2), cos(lat1)·sin(lat2) − sin(lat1)·cos(lat2)·cos(Δlon))`,
with the degree inputs converted to radians first, normalised into
`[0, 2π)` by adding `2π` when negative.  Kept separate from the code
embeddings so the two can be compared. -/
noncomputable def specBearingFormula (lat1deg lon1deg lat2deg lon2deg : ℝ) : ℝ :=
  let lat1 := lat1deg * π / 180
  let lat2 := lat2deg * π / 180
  let dlon := (lon2deg - lon1deg) * π / 180
  let az := atan2 (Real.sin dlon * Real.cos lat2)
    (Real.cos lat1 * Real.sin lat2 - Real.sin lat1 * Real.cos lat2 * Real.cos dlon)
  if az < 0 then az + 2 * π else az

namespace Radar

/-- `inBounds` from `radar.go` (lines 20–25): inclusive lower bounds
(`x >= 0`, `y >= 0`). -/
def inBounds (width height x y : ℤ) : Bool :=
  if x ≥ 0 ∧ x < width ∧ y ≥ 0 ∧ y < height then true else false

/-- `getPlaneSymbol` from `radar.go` (lines 27–43): the directional glyph
chosen from the aircraft heading. -/
def getPlaneSymbol (p : plane) : Char :=
  let heading := p.Heading
  if heading ≥ 315 ∨ heading < 45 then '^'
  else if heading ≥ 45 ∧ heading < 135 then '>'
  else if heading ≥ 135 ∧ heading < 225 then 'v'
  else if heading ≥ 225 ∧ heading < 315 then '<'
  else '*'

/-- The `interp` sample points of the sweep-arm loop in `renderSweepArm`
(`radar.go` line 78): `for interp := 0.0; interp <= 1.0; interp += 0.1`,
modelled with exact rational arithmetic: `0, 1/10, …, 1`. -/
def sweepInterpSamples : List ℚ :=
  [0, 1/10, 2/10, 3/10, 4/10, 5/10, 6/10, 7/10, 8/10, 9/10, 1]

/-- The cell mutation performed by `renderSweepArm` when a sweep-arm
sample lands on a cell (`radar.go` lines 83–86): kind `"sweep"`, age
`int(interp * 10)`, character `' '`. -/
def sweepArmPaint (interp : ℚ) (_c : cell) : cell :=
  ⟨' ', "sweep", intTruncQ (interp * 10)⟩

/-- The cell mutation performed by `renderPlanes` when an aircraft is
painted (`radar.go` lines 106–109): kind `"plane"`, the directional
glyph, age `0`. -/
def planePaint (p : plane) (_c : cell) : cell :=
  ⟨getPlaneSymbol p, "plane", 0⟩

/-- The background fade tier computed by the render loop of
`renderRadar` (`radar.go` lines 186–193). -/
inductive BgTier where
  | bright
  | medium
  | dim
  | noFade
deriving DecidableEq

/-- The plane-glyph fade tier computed by the render loop of
`renderRadar` (`radar.go` lines 195–210).  The `default` branch of the Go
switch applies the dim foreground colour, so it maps to `.dim`; the
`sweepAge == 99` branch blanks the cell. -/
inductive PlaneTier where
  | bright
  | medium
  | dim
  | dimmest
  | blank
deriving DecidableEq

/-- The background fade-tier switch of `renderRadar` (`radar.go` lines
186–193), first matching case wins:
`<=2` bright, `>2 && <=7` medium, `>3 && <=12` dim, otherwise no fade
colour. -/
def bgTier (a : ℤ) : BgTier :=
  if a ≤ 2 then .bright
  else if 2 < a ∧ a ≤ 7 then .medium
  else if 3 < a ∧ a ≤ 12 then .dim
  else .noFade

/-- The plane-glyph fade-tier switch of `renderRadar` (`radar.go` lines
195–210), first matching case wins: `<=15` bright, `>15 && <=30` medium,
`>30 && <=60` dim, `>60 && <=90` dimmest, `==99` blank, default dim. -/
def planeTier (a : ℤ) : PlaneTier :=
  if a ≤ 15 then .bright
  else if 15 < a ∧ a ≤ 30 then .medium
  else if 30 < a ∧ a ≤ 60 then .dim
  else if 60 < a ∧ a ≤ 90 then .dimmest
  else if a = 99 then .blank
  else .dim

/-- `radarContext` from `radar.go` (lines 11–18): geometry and sizing for
radar rendering. -/
structure radarContext where
  cx : ℤ
  cy : ℤ
  width : ℤ
  height : ℤ
  maxR : ℝ
  r : ℝ

/-- The cell stored at row `y`, column `x` of the buffer (out-of-range
reads never occur after an `inBounds` check; the default is the initial
blank cell). -/
def cellAt (g : Grid) (y x : ℤ) : cell :=
  (g.getD y.toNat []).getD x.toNat ⟨' ', "blank", 100⟩

/-- Writing one cell of the buffer: `m.buffer[y][x] = c`. -/
def setCell (g : Grid) (y x : ℤ) (c : cell) : Grid :=
  g.set y.toNat ((g.getD y.toNat []) |>.set x.toNat c)

/-- `len(m.buffer[0])`, the column count of the buffer. -/
def gridWidth (g : Grid) : ℤ := (g.getD 0 []).length

/-- `len(m.buffer)`, the row count of the buffer. -/
def gridHeight (g : Grid) : ℤ := g.length

/-- The scaled on-screen distance of an aircraft in `renderPlanes`
(`radar.go` lines 98–99): `scale := (ctx.maxR-4)/radarRange;
virtualDistance := p.DistanceFromObserver * scale`. -/
noncomputable def planeVirtualDistance (radarRange : ℤ) (maxR : ℝ) (p : plane) : ℝ :=
  (p.DistanceFromObserver : ℝ) * ((maxR - 4) / (radarRange : ℝ))

/-- The screen column of an aircraft in `renderPlanes` (`radar.go` lines
100–101): `displayBearing := p.BearingFromObserver - m.northOffset;
posX := ctx.cx + int(virtualDistance*math.Sin(displayBearing))`. -/
noncomputable def planePosX (ctx : radarContext) (northOffset : ℝ)
    (radarRange : ℤ) (p : plane) : ℤ :=
  ctx.cx + intTrunc (planeVirtualDistance radarRange ctx.maxR p *
    Real.sin ((p.BearingFromObserver : ℝ) - northOffset))

/-- The screen row of an aircraft in `renderPlanes` (`radar.go` line
102): `posY := ctx.cy - int(virtualDistance*math.Cos(displayBearing)*
m.aspectRatio)`. -/
noncomputable def planePosY (ctx : radarContext) (northOffset aspectRatio : ℝ)
    (radarRange : ℤ) (p : plane) : ℤ :=
  ctx.cy - intTrunc (planeVirtualDistance radarRange ctx.maxR p *
    Real.cos ((p.BearingFromObserver : ℝ) - northOffset) * aspectRatio)

/-- The body of the aircraft loop of `renderPlanes` (`radar.go` lines
93–112) for one aircraft: skip it unless its flight code is in the
visibility set; skip it when its distance exceeds the range; otherwise
paint its screen position when that position is in bounds and closer
than `ctx.r` to the grid centre. -/
noncomputable def renderPlanesOne (ctx : radarContext)
    (northOffset aspectRatio : ℝ) (radarRange : ℤ)
    (visiblePlanes : List String) (buffer : Grid) (p : plane) : Grid :=
  if p.FlightCode ∈ visiblePlanes then
    if (p.DistanceFromObserver : ℝ) > (radarRange : ℝ) then buffer
    else
      let posX := planePosX ctx northOffset radarRange p
      let posY := planePosY ctx northOffset aspectRatio radarRange p
      let dx : ℝ := ((posX - ctx.cx : ℤ) : ℝ)
      let dy : ℝ := ((posY - ctx.cy : ℤ) : ℝ)
      if inBounds ctx.width ctx.height posX posY = true ∧
          Real.sqrt (dx * dx + dy * dy) < ctx.r then
        setCell buffer posY posX (planePaint p (cellAt buffer posY posX))
      else buffer
  else buffer

/-- `renderPlanes` from `radar.go` (lines 92–113): the aircraft loop over
the whole plane list. -/
noncomputable def renderPlanes (ctx : radarContext)
    (northOffset aspectRatio : ℝ) (radarRange : ℤ)
    (visiblePlanes : List String) (buffer : Grid) (planes : List plane) : Grid :=
  planes.foldl (renderPlanesOne ctx northOffset aspectRatio radarRange visiblePlanes) buffer

/-- `renderSweepArm` from `radar.go` (lines 75–90): for every arm length
`l ∈ [0, int(ctx.r)]` and every interpolation sample, paint the sampled
point (via `sweepArmPaint`) when it is inside the buffer. -/
noncomputable def renderSweepArm (ctx : radarContext)
    (aspectRatio sweepAngle : ℝ) (buffer : Grid) : Grid :=
  let prevAngle := sweepAngle - 0.15
  (List.range ((intTrunc ctx.r).toNat + 1)).foldl (fun g l =>
    sweepInterpSamples.foldl (fun g2 (interp : ℚ) =>
      let theta := prevAngle + (interp : ℝ) * (sweepAngle - prevAngle)
      let x := ctx.cx + intTrunc ((l : ℝ) * Real.sin theta)
      let y := ctx.cy - intTrunc ((l : ℝ) * Real.cos theta * aspectRatio)
      if inBounds (gridWidth g2) (gridHeight g2) x y = true then
        setCell g2 y x (sweepArmPaint interp (cellAt g2 y x))
      else g2) g) buffer

end Radar

/-! ## Helper lemmas -/

/-- Iterating the aging step: the age saturates at the ceiling `100`. -/
theorem ageCell_iterate (n : ℕ) (a : ℤ) (h : a ≤ 100) :
    MainGo.ageCell^[n] a = min (a + n) 100 := by
  induction n with
  | zero => simp [min_eq_left h]
  | succ n ih =>
      rw [Function.iterate_succ_apply', ih]
      unfold MainGo.ageCell
      split_ifs <;> push_cast <;> omega

/-! ## C4 — aging is monotonic and clamped -/

/-- C4: each tick increments a cell's age by exactly `1` unless it already
equals the ceiling `100`; aging never decreases an age nor pushes it past
`100`; after `1000` ticks an untouched cell's age is exactly `100`; and
the aging pass applies exactly this step to every cell of the buffer,
leaving character and kind unchanged. -/
theorem C4_aging_monotonic_clamped :
    (∀ a : ℤ, 0 ≤ a → a ≤ 100 →
      (a < 100 → MainGo.ageCell a = a + 1) ∧
      a ≤ MainGo.ageCell a ∧ MainGo.ageCell a ≤ 100 ∧
      MainGo.ageCell^[1000] a = 100) ∧
    MainGo.ageCell 100 = 100 ∧
    ∀ g : Grid, List.Forall₂
      (List.Forall₂ (fun c c2 : cell => c2 = ⟨c.char, c.kind, MainGo.ageCell c.sweepAge⟩))
      g (MainGo.ageAll g) := by
  refine ⟨fun a h0 h1 => ⟨fun hlt => ?_, ?_, ?_, ?_⟩, rfl, fun g => ?_⟩
  · simp [MainGo.ageCell, hlt]
  · unfold MainGo.ageCell; split_ifs <;> omega
  · unfold MainGo.ageCell; split_ifs <;> omega
  · rw [ageCell_iterate 1000 a h1]; omega
  · unfold MainGo.ageAll
    rw [List.forall₂_map_right_iff, List.forall₂_same]
    intro row _
    rw [List.forall₂_map_right_iff, List.forall₂_same]
    intro c _
    rfl

/-- C4 witness: the aging facts instantiated at the concrete age `57`. -/
theorem C4_aging_monotonic_clamped_witness :
    (0 : ℤ) ≤ 57 ∧ (57 : ℤ) ≤ 100 ∧
    (((57 : ℤ) < 100 → MainGo.ageCell 57 = 57 + 1) ∧
      (57 : ℤ) ≤ MainGo.ageCell 57 ∧ MainGo.ageCell 57 ≤ 100 ∧
      MainGo.ageCell^[1000] 57 = 100) :=
  ⟨by decide, by decide, C4_aging_monotonic_clamped.1 57 (by decide) (by decide)⟩

/-! ## C5 — painted cells and their ages -/

/-- C5 counterexample: the sweep-arm painter does not reset the age to
`0`: the sample `interp = 1/2` paints a cell with age `5`. -/
theorem C5_sweep_paint_age_not_zero :
    (1/2 : ℚ) ∈ Radar.sweepInterpSamples ∧
    (Radar.sweepArmPaint (1/2) ⟨' ', "blank", 100⟩).sweepAge = 5 ∧
    (Radar.sweepArmPaint (1/2) ⟨' ', "blank", 100⟩).sweepAge ≠ 0 := by
  refine ⟨?_, ?_, ?_⟩ <;> norm_num [Radar.sweepInterpSamples, Radar.sweepArmPaint, intTruncQ]

/-- C5 amended: an aircraft paint (`renderPlanes`) writes kind `"plane"`
with age `0` regardless of the previous cell; a sweep-arm paint
(`renderSweepArm`) writes kind `"sweep"` with age `int(interp·10)`,
which ranges over `[0, 10]` for the loop's samples and is `0` only for
the `interp = 0` sample. -/
theorem C5_paint_ages :
    (∀ (p : plane) (c : cell),
      (Radar.planePaint p c).kind = "plane" ∧ (Radar.planePaint p c).sweepAge = 0) ∧
    (∀ (interp : ℚ) (c : cell), interp ∈ Radar.sweepInterpSamples →
      (Radar.sweepArmPaint interp c).kind = "sweep" ∧
      (Radar.sweepArmPaint interp c).sweepAge = intTruncQ (interp * 10) ∧
      0 ≤ (Radar.sweepArmPaint interp c).sweepAge ∧
      (Radar.sweepArmPaint interp c).sweepAge ≤ 10) := by
  refine ⟨fun p c => ⟨rfl, rfl⟩, fun interp c h => ?_⟩
  simp only [Radar.sweepInterpSamples, List.mem_cons, List.not_mem_nil, or_false] at h
  rcases h with h | h | h | h | h | h | h | h | h | h | h <;> subst h <;>
    refine ⟨rfl, rfl, ?_, ?_⟩ <;> norm_num [Radar.sweepArmPaint, intTruncQ]

/-- C5 witness: the paint facts instantiated at the sample `interp = 3/10`
and a concrete stale cell. -/
theorem C5_paint_ages_witness :
    (3/10 : ℚ) ∈ Radar.sweepInterpSamples ∧
    ((Radar.sweepArmPaint (3/10) ⟨'x', "label", 42⟩).kind = "sweep" ∧
      (Radar.sweepArmPaint (3/10) ⟨'x', "label", 42⟩).sweepAge = intTruncQ ((3/10) * 10) ∧
      0 ≤ (Radar.sweepArmPaint (3/10) ⟨'x', "label", 42⟩).sweepAge ∧
      (Radar.sweepArmPaint (3/10) ⟨'x', "label", 42⟩).sweepAge ≤ 10) :=
  ⟨by norm_num [Radar.sweepInterpSamples],
    C5_paint_ages.2 (3/10) ⟨'x', "label", 42⟩ (by norm_num [Radar.sweepInterpSamples])⟩

/-! ## C6 — fade tiers -/

/-- C6 counterexample: the claimed buckets disagree with the render loop:
a background cell of age `1` is rendered in the brightest tier (the code
bucket is `age ≤ 2`), not the medium tier the claim assigns to ages 1–3,
and a plane glyph of age `100` falls into the default dim branch, not
the blank branch the claim assigns to all ages `≥ 99`. -/
theorem C6_fade_tier_buckets_differ :
    Radar.bgTier 1 = Radar.BgTier.bright ∧
    Radar.bgTier 1 ≠ Radar.BgTier.medium ∧
    Radar.planeTier 100 = Radar.PlaneTier.dim ∧
    Radar.planeTier 100 ≠ Radar.PlaneTier.blank := by
  decide

/-- C6 amended: the render-time fade tiers as the code computes them:
background ages `≤ 2` brightest, `3–7` medium, `8–12` dim, `> 12` no
fade; plane-glyph ages `≤ 15` bright, `16–30` medium, `31–60` dim,
`61–90` dimmest, exactly `99` blank, and every other age above `90`
(`91–98` and `≥ 100`) the default dim. -/
theorem C6_fade_tiers :
    ∀ a : ℤ,
    (Radar.bgTier a = Radar.BgTier.bright ↔ a ≤ 2) ∧
    (Radar.bgTier a = Radar.BgTier.medium ↔ 2 < a ∧ a ≤ 7) ∧
    (Radar.bgTier a = Radar.BgTier.dim ↔ 7 < a ∧ a ≤ 12) ∧
    (Radar.bgTier a = Radar.BgTier.noFade ↔ 12 < a) ∧
    (Radar.planeTier a = Radar.PlaneTier.bright ↔ a ≤ 15) ∧
    (Radar.planeTier a = Radar.PlaneTier.medium ↔ 15 < a ∧ a ≤ 30) ∧
    (Radar.planeTier a = Radar.PlaneTier.dim ↔ (30 < a ∧ a ≤ 60) ∨ (90 < a ∧ a ≠ 99)) ∧
    (Radar.planeTier a = Radar.PlaneTier.dimmest ↔ 60 < a ∧ a ≤ 90) ∧
    (Radar.planeTier a = Radar.PlaneTier.blank ↔ a = 99) := by
  intro a
  refine ⟨?_, ?_, ?_, ?_, ?_, ?_, ?_, ?_, ?_⟩ <;>
    first
    | (unfold Radar.bgTier; split_ifs <;> simp <;> omega)
    | (unfold Radar.planeTier; split_ifs <;> simp <;> omega)

/-! ## C7 — paint bounds check -/

/-- C7 counterexample: the bounds check of `radar.go` accepts the
leftmost column `x = 0`, so the check is not strict at the lower edge. -/
theorem C7_radar_inBounds_accepts_zero :
    Radar.inBounds 10 10 0 5 = true ∧ ¬ ((0 : ℤ) < 0) := by
  decide

/-- C7 amended: the two snapshots disagree: `main.go`'s `inBounds`
accepts exactly `0 < x < width ∧ 0 < y < height` (strict exclusive lower
bounds, so column 0 and row 0 are never written), while `radar.go`'s
`inBounds` accepts exactly `0 ≤ x < width ∧ 0 ≤ y < height` (inclusive
lower bounds, so column 0 and row 0 are writable). -/
theorem C7_inBounds_characterization :
    ∀ w h x y : ℤ,
    (MainGo.inBounds w h x y = true ↔ 0 < x ∧ x < w ∧ 0 < y ∧ y < h) ∧
    (Radar.inBounds w h x y = true ↔ 0 ≤ x ∧ x < w ∧ 0 ≤ y ∧ y < h) := by
  intro w h x y
  refine ⟨?_, ?_⟩
  · unfold MainGo.inBounds
    split_ifs with hh <;> simp_all
  · unfold Radar.inBounds
    split_ifs with hh <;> simp_all

/-! ## C9 — directional glyph selection -/

/-- C9 counterexample: there is no distinct default glyph for the
intercardinal sectors, and a zero heading does not receive the fallback
glyph: a heading of `68°` (inside the north-east sector) gets
the east glyph `'>'`, and a zero heading gets the north glyph `'^'`,
never `'*'`. -/
theorem C9_intercardinal_no_default :
    Radar.getPlaneSymbol ⟨"X", "X", 0, 0, 68, 0, 0⟩ = '>' ∧
    Radar.getPlaneSymbol ⟨"X", "X", 0, 0, 0, 0, 0⟩ = '^' ∧
    Radar.getPlaneSymbol ⟨"X", "X", 0, 0, 0, 0, 0⟩ ≠ '*' := by
  refine ⟨?_, ?_, ?_⟩ <;> norm_num [Radar.getPlaneSymbol] <;> decide

/-- C9 amended: the glyph is chosen by quantising the heading into four
90°-wide sectors centred on the cardinal directions (`≥ 315` or `< 45`
→ `'^'`, `45–135` → `'>'`, `135–225` → `'v'`, `225–315` → `'<'`); an
intercardinal heading receives the glyph of the adjacent cardinal
sector, a missing/zero heading receives `'^'`, and the fallback `'*'` is
never returned for a rational (non-NaN) heading. -/
theorem C9_glyph_sectors :
    ∀ p : plane,
    (Radar.getPlaneSymbol p = '^' ↔ (315 ≤ p.Heading ∨ p.Heading < 45)) ∧
    (Radar.getPlaneSymbol p = '>' ↔ (45 ≤ p.Heading ∧ p.Heading < 135)) ∧
    (Radar.getPlaneSymbol p = 'v' ↔ (135 ≤ p.Heading ∧ p.Heading < 225)) ∧
    (Radar.getPlaneSymbol p = '<' ↔ (225 ≤ p.Heading ∧ p.Heading < 315)) ∧
    Radar.getPlaneSymbol p ≠ '*' := by
  intro p
  simp only [Radar.getPlaneSymbol]
  split_ifs with h1 h2 h3 h4
  · refine ⟨?_, ?_, ?_, ?_, ?_⟩ <;> simp <;>
      first
      | tauto
      | (rcases h1 with h1 | h1 <;>
          first
          | (constructor <;> intro hx <;> linarith)
          | (intro hx; linarith)
          | linarith)
  · push_neg at h1
    refine ⟨?_, ?_, ?_, ?_, ?_⟩ <;> simp <;>
      first
      | tauto
      | (constructor <;> first | linarith [h1.1, h1.2] | (intro hx; linarith [h2.1, h2.2]))
      | (intro hx; linarith [h2.1, h2.2])
      | linarith [h1.1, h1.2, h2.1, h2.2]
  · push_neg at h1 h2
    refine ⟨?_, ?_, ?_, ?_, ?_⟩ <;> simp <;>
      first
      | tauto
      | (constructor <;> first | linarith [h1.1, h1.2] | (intro hx; linarith [h3.1, h3.2]))
      | (intro hx; linarith [h3.1, h3.2])
      | linarith [h1.1, h1.2, h3.1, h3.2]
  · push_neg at h1 h2 h3
    refine ⟨?_, ?_, ?_, ?_, ?_⟩ <;> simp <;>
      first
      | tauto
      | (constructor <;> first | linarith [h1.1, h1.2] | (intro hx; linarith [h4.1, h4.2]))
      | (intro hx; linarith [h4.1, h4.2])
      | linarith [h1.1, h1.2, h4.1, h4.2]
  · push_neg at h1 h2 h3 h4
    exact absurd (h4 (h3 (h2 h1.2))) (not_le.mpr h1.1)

/-! ## Helper lemmas about the Go float primitives -/

/-- Truncation agrees with the floor on nonnegative reals. -/
theorem intTrunc_of_nonneg (x : ℝ) (h : 0 ≤ x) : intTrunc x = ⌊x⌋ := if_pos h

/-- Truncation toward zero is an odd function. -/
theorem intTrunc_neg_eq (x : ℝ) : intTrunc (-x) = -intTrunc x := by
  unfold intTrunc
  rcases le_or_lt 0 x with h | h
  · rw [if_pos h]
    split_ifs with h2
    · have hx0 : x = 0 := le_antisymm (by linarith) h
      subst hx0; simp
    · exact Int.ceil_neg
  · rw [if_neg (not_le.mpr h), if_pos (by linarith)]
    exact Int.floor_neg

/-- `mathMod` as a scaled fractional part. -/
theorem mathMod_eq_fract (x y : ℝ) (hy : y ≠ 0) :
    mathMod x y = y * Int.fract (x / y) := by
  unfold mathMod
  rw [Int.fract]
  field_simp

/-- `mathMod` is nonnegative for a positive modulus. -/
theorem mathMod_nonneg (x y : ℝ) (hy : 0 < y) : 0 ≤ mathMod x y := by
  rw [mathMod_eq_fract x y hy.ne']
  exact mul_nonneg hy.le (Int.fract_nonneg _)

/-- `mathMod` is below a positive modulus. -/
theorem mathMod_lt (x y : ℝ) (hy : 0 < y) : mathMod x y < y := by
  rw [mathMod_eq_fract x y hy.ne']
  calc y * Int.fract (x / y) < y * 1 :=
        (mul_lt_mul_left hy).mpr (Int.fract_lt_one _)
    _ = y := mul_one y

/-- `mathMod` is invariant under shifts by integer multiples of the
modulus. -/
theorem mathMod_add_int_mul (x y : ℝ) (hy : y ≠ 0) (k : ℤ) :
    mathMod (x + y * k) y = mathMod x y := by
  unfold mathMod
  have hdiv : (x + y * k) / y = x / y + k := by
    field_simp
    ring
  rw [hdiv, Int.floor_add_int]
  push_cast
  ring

/-- `mathMod` is the identity inside `[0, y)`. -/
theorem mathMod_eq_self (x y : ℝ) (h0 : 0 ≤ x) (h1 : x < y) : mathMod x y = x := by
  have hy : 0 < y := lt_of_le_of_lt h0 h1
  unfold mathMod
  rw [Int.floor_eq_zero_iff.mpr ⟨div_nonneg h0 hy.le, (div_lt_one hy).mpr h1⟩]
  simp

/-- The Go remainder agrees with the mathematical modulus on nonnegative
dividends. -/
theorem goMod_of_nonneg (x y : ℝ) (hx : 0 ≤ x) (hy : 0 < y) :
    goMod x y = mathMod x y := by
  unfold goMod mathMod
  rw [intTrunc_of_nonneg _ (div_nonneg hx hy.le)]

/-- The Go remainder is odd in the dividend. -/
theorem goMod_neg_left (x y : ℝ) : goMod (-x) y = -goMod x y := by
  unfold goMod
  rw [neg_div, intTrunc_neg_eq]
  push_cast
  ring

/-- The Go remainder is nonnegative when the dividend is. -/
theorem goMod_nonneg (x y : ℝ) (hx : 0 ≤ x) (hy : 0 < y) : 0 ≤ goMod x y := by
  rw [goMod_of_nonneg x y hx hy]
  exact mathMod_nonneg x y hy

/-- The Go remainder is below a positive modulus. -/
theorem goMod_lt (x y : ℝ) (hy : 0 < y) : goMod x y < y := by
  rcases le_or_lt 0 x with h | h
  · rw [goMod_of_nonneg x y h hy]
    exact mathMod_lt x y hy
  · have : goMod x y = -goMod (-x) y := by
      rw [← goMod_neg_left, neg_neg]
    rw [this]
    have h2 : 0 ≤ goMod (-x) y := goMod_nonneg _ _ (by linarith) hy
    linarith

/-- The diff computed by `withinSweep` equals the mathematical forward
angular difference whenever the sweep angle is nonnegative (`cb` is the
corrected bearing, arbitrary). -/
theorem sweepDiff_eq (s cb : ℝ) (hs : 0 ≤ s) :
    goMod (goMod s (2*π) - goMod cb (2*π) + 2*π) (2*π) =
      mathMod (s - cb + 2*π) (2*π) := by
  have h2pi : (0:ℝ) < 2*π := by positivity
  have hs1 : 0 ≤ goMod s (2*π) := goMod_nonneg _ _ hs h2pi
  have hb1 : goMod cb (2*π) < 2*π := goMod_lt _ _ h2pi
  have hA : 0 ≤ goMod s (2*π) - goMod cb (2*π) + 2*π := by linarith
  rw [goMod_of_nonneg _ _ hA h2pi]
  have e1 : goMod s (2*π) = s - (2*π) * ((intTrunc (s/(2*π)) : ℤ) : ℝ) := rfl
  have e2 : goMod cb (2*π) = cb - (2*π) * ((intTrunc (cb/(2*π)) : ℤ) : ℝ) := rfl
  have eA : goMod s (2*π) - goMod cb (2*π) + 2*π =
      (s - cb + 2*π) + (2*π) * ((intTrunc (cb/(2*π)) - intTrunc (s/(2*π)) : ℤ) : ℝ) := by
    rw [e1, e2]; push_cast; ring
  rw [eA]
  exact mathMod_add_int_mul _ _ h2pi.ne' _

/-! ## C2 — sweep membership -/

/-- C2 counterexample: for a negative sweep angle the claimed equivalence
fails: with bearing `4`, sweep angle `-3` and zero north offset the code
accepts the aircraft (the Go remainder of the diff is negative, hence
below the window width), while the claimed forward difference
`(sweepAngle − correctedBearing + 2π) mod 2π = 4π − 7` exceeds `0.5`. -/
theorem C2_withinSweep_mod_formula_fails_for_negative_sweep :
    MainGo.withinSweep 4 (-3) (1/2) 0 ∧
    ¬ (mathMod ((-3) - (4 + 0) + 2*π) (2*π) ≤ 1/2) := by
  have h2pi : (0:ℝ) < 2*π := by positivity
  constructor
  · show goMod (goMod (-3) (2*π) - goMod (4 + 0) (2*π) + 2*π) (2*π) ≤ 1/2
    have e4 : goMod ((4:ℝ) + 0) (2*π) = 4 := by
      norm_num
      rw [goMod_of_nonneg _ _ (by norm_num) h2pi,
        mathMod_eq_self _ _ (by norm_num) (by linarith [Real.pi_gt_three])]
    have e3 : goMod (-3 : ℝ) (2*π) = -3 := by
      rw [show ((-3:ℝ)) = -(3:ℝ) by norm_num, goMod_neg_left,
        goMod_of_nonneg _ _ (by norm_num) h2pi,
        mathMod_eq_self _ _ (by norm_num) (by linarith [Real.pi_gt_three])]
    rw [e3, e4]
    have earg : (-3:ℝ) - 4 + 2*π = -(7 - 2*π) := by ring
    rw [earg, goMod_neg_left,
      goMod_of_nonneg _ _ (by linarith [Real.pi_lt_d2]) h2pi,
      mathMod_eq_self _ _ (by linarith [Real.pi_lt_d2]) (by linarith [Real.pi_gt_three])]
    linarith [Real.pi_lt_d2]
  · have earg : (-3:ℝ) - (4 + 0) + 2*π = (4*π - 7) + (2*π) * ((-1:ℤ):ℝ) := by
      push_cast; ring
    rw [earg, mathMod_add_int_mul _ _ h2pi.ne' (-1),
      mathMod_eq_self _ _ (by linarith [Real.pi_gt_three]) (by linarith [Real.pi_lt_d2])]
    push_neg
    linarith [Real.pi_gt_three]

/-- C2 amended: for every bearing and north offset, and every
*nonnegative* sweep angle (the program keeps the sweep angle in
`[0, 2π)`), the membership test of either snapshot holds exactly when
the forward angular difference of the corrected bearing, taken modulo
`2π` into `[0, 2π)`, is at most the window width `0.5`; and with zero
north offset the test is one-sided: bearing `sweepAngle − 0.01` is a
member while bearing `sweepAngle + 0.01` is not. -/
theorem C2_withinSweep_forward_difference :
    ∀ bearing sweepAngle northOffset : ℝ, 0 ≤ sweepAngle →
    ((MainGo.withinSweep bearing sweepAngle (1/2) northOffset ↔
        mathMod (sweepAngle - (bearing + northOffset) + 2*π) (2*π) ≤ 1/2) ∧
      (Srv.withinSweep bearing sweepAngle (1/2) northOffset ↔
        mathMod (sweepAngle - (bearing - northOffset) + 2*π) (2*π) ≤ 1/2)) ∧
    (MainGo.withinSweep (sweepAngle - 1/100) sweepAngle (1/2) 0 ∧
      ¬ MainGo.withinSweep (sweepAngle + 1/100) sweepAngle (1/2) 0) := by
  intro b s no hs
  have h2pi : (0:ℝ) < 2*π := by positivity
  have key : ∀ cb : ℝ,
      goMod (goMod s (2*π) - goMod cb (2*π) + 2*π) (2*π) ≤ 1/2 ↔
        mathMod (s - cb + 2*π) (2*π) ≤ 1/2 := fun cb => by
    rw [sweepDiff_eq s cb hs]
  refine ⟨⟨key (b + no), key (b - no)⟩, ?_, ?_⟩
  · show goMod (goMod s (2*π) - goMod ((s - 1/100) + 0) (2*π) + 2*π) (2*π) ≤ 1/2
    rw [key ((s - 1/100) + 0)]
    have earg : s - ((s - 1/100) + 0) + 2*π = (1/100 : ℝ) + (2*π) * ((1:ℤ):ℝ) := by
      push_cast; ring
    rw [earg, mathMod_add_int_mul _ _ h2pi.ne' 1,
      mathMod_eq_self _ _ (by norm_num) (by linarith [Real.pi_gt_three])]
    norm_num
  · show ¬ goMod (goMod s (2*π) - goMod ((s + 1/100) + 0) (2*π) + 2*π) (2*π) ≤ 1/2
    rw [key ((s + 1/100) + 0)]
    have earg : s - ((s + 1/100) + 0) + 2*π = 2*π - 1/100 := by ring
    rw [earg, mathMod_eq_self _ _ (by linarith [Real.pi_gt_three]) (by linarith [Real.pi_gt_three])]
    push_neg
    linarith [Real.pi_gt_three]

/-- C2 witness: the amended statement instantiated at bearing `2`, sweep
angle `1`, north offset `0`. -/
theorem C2_withinSweep_forward_difference_witness :
    (0:ℝ) ≤ 1 ∧
    (((MainGo.withinSweep 2 1 (1/2) 0 ↔
        mathMod ((1:ℝ) - (2 + 0) + 2*π) (2*π) ≤ 1/2) ∧
      (Srv.withinSweep 2 1 (1/2) 0 ↔
        mathMod ((1:ℝ) - (2 - 0) + 2*π) (2*π) ≤ 1/2)) ∧
    (MainGo.withinSweep ((1:ℝ) - 1/100) 1 (1/2) 0 ∧
      ¬ MainGo.withinSweep ((1:ℝ) + 1/100) 1 (1/2) 0)) :=
  ⟨by norm_num, C2_withinSweep_forward_difference 2 1 0 (by norm_num)⟩

/-! ## C3 — sweep-angle advance -/

/-- C3 counterexample: the advance does not compute `(angle + step) mod
2π`: at the in-range angle `6.2` the code resets the sweep angle to
exactly `0`, while `(6.2 + 0.1) mod 2π = 6.3 − 2π ≈ 0.017` is not `0`. -/
theorem C3_advance_not_mod :
    ((0:ℝ) ≤ 6.2 ∧ (6.2:ℝ) < 2*π) ∧
    MainGo.advanceSweep 6.2 = 0 ∧
    MainGo.advanceSweep 6.2 ≠ mathMod (6.2 + 0.1) (2*π) := by
  have h2pi : (0:ℝ) < 2*π := by positivity
  have h1 : (6.2:ℝ) < 2*π := by linarith [Real.pi_gt_d2]
  have h2 : MainGo.advanceSweep 6.2 = 0 := by
    unfold MainGo.advanceSweep
    rw [if_pos (by linarith [Real.pi_lt_d2])]
  refine ⟨⟨by norm_num, h1⟩, h2, ?_⟩
  rw [h2]
  have e63 : (6.2:ℝ) + 0.1 = (6.3 - 2*π) + (2*π) * ((1:ℤ):ℝ) := by
    push_cast; ring_nf
  rw [e63, mathMod_add_int_mul _ _ h2pi.ne' 1,
    mathMod_eq_self _ _ (by linarith [Real.pi_lt_d2]) (by linarith [Real.pi_gt_three])]
  have : (0:ℝ) < 6.3 - 2*π := by linarith [Real.pi_lt_d2]
  exact ne_of_lt this

/-- C3 amended: the advance adds the fixed step `0.1` and resets the
angle to exactly `0` as soon as the sum reaches `2π`; starting from a
value in `[0, 2π)` the angle stays in `[0, 2π)`, and iterating from `0`
the angle runs through `0, 0.1, …, 6.2` and wraps back to exactly `0`
on the 63rd tick — one wrap per `⌈2π/0.1⌉ = 63` steps. -/
theorem C3_sweep_angle_invariant_and_wrap :
    (∀ a : ℝ, 0 ≤ a → a < 2*π →
      0 ≤ MainGo.advanceSweep a ∧ MainGo.advanceSweep a < 2*π) ∧
    (∀ k : ℕ, k ≤ 62 → MainGo.advanceSweep^[k] 0 = (k:ℝ)/10) ∧
    MainGo.advanceSweep^[63] 0 = 0 := by
  have hpos : (0:ℝ) < 2*π := by positivity
  have hiter : ∀ k : ℕ, k ≤ 62 → MainGo.advanceSweep^[k] 0 = (k:ℝ)/10 := by
    intro k
    induction k with
    | zero => intro _; simp
    | succ n ih =>
        intro hk
        rw [Function.iterate_succ_apply', ih (by omega)]
        unfold MainGo.advanceSweep
        rw [if_neg]
        · push_cast; ring
        · push_neg
          have hn : ((n:ℝ)) ≤ 61 := by exact_mod_cast (by omega : n ≤ 61)
          linarith [Real.pi_gt_d2]
  refine ⟨?_, hiter, ?_⟩
  · intro a h0 h1
    unfold MainGo.advanceSweep
    split_ifs with h
    · exact ⟨le_refl 0, hpos⟩
    · push_neg at h
      constructor <;> linarith
  · rw [show (63:ℕ) = 62 + 1 from rfl, Function.iterate_succ_apply',
      hiter 62 (le_refl _)]
    unfold MainGo.advanceSweep
    rw [if_pos]
    push_cast
    linarith [Real.pi_lt_d2]

/-- C3 witness: the invariant at angle `1` and the orbit value after `5`
ticks. -/
theorem C3_sweep_angle_invariant_and_wrap_witness :
    ((0:ℝ) ≤ 1 ∧ (1:ℝ) < 2*π ∧
      (0 ≤ MainGo.advanceSweep 1 ∧ MainGo.advanceSweep 1 < 2*π)) ∧
    ((5:ℕ) ≤ 62 ∧ MainGo.advanceSweep^[5] 0 = ((5:ℕ):ℝ)/10) :=
  ⟨⟨by norm_num, by linarith [Real.pi_gt_three],
      C3_sweep_angle_invariant_and_wrap.1 1 (by norm_num) (by linarith [Real.pi_gt_three])⟩,
    ⟨by norm_num, C3_sweep_angle_invariant_and_wrap.2.1 5 (by norm_num)⟩⟩

/-- The `atan2` result lies in `(-π, π]`. -/
theorem atan2_bounds (y x : ℝ) : -π < atan2 y x ∧ atan2 y x ≤ π :=
  ⟨Complex.neg_pi_lt_arg _, Complex.arg_le_pi _⟩

/-- Normalising a value of `(-π, π]` by adding `2π` when negative lands
in `[0, 2π)`. -/
theorem normalize_range (t : ℝ) (h1 : -π < t) (h2 : t ≤ π) :
    0 ≤ (if t < 0 then t + 2*π else t) ∧ (if t < 0 then t + 2*π else t) < 2*π := by
  have := Real.pi_pos
  split_ifs with h <;> constructor <;> linarith

/-! ## C1 — bearing computation -/

/-- C1 counterexample: the `main.go` snapshot of
`SetPlaneLocationDetails` does not convert degrees to radians: for the
observer at `(0, 0)` and an aircraft at latitude `60°`, longitude `0`,
it feeds `60` radians into the trigonometric functions and returns the
bearing `π` (because `sin 60 < 0`), while the radian-converting formula
of the claim returns `0` (due north). -/
theorem C1_mainGo_bearing_not_radian_formula :
    MainGo.planeBearing 0 0 60 0 ≠ specBearingFormula 0 0 60 0 := by
  have hsin60 : Real.sin 60 < 0 := by
    have e : (60:ℝ) = (60 - 20*π) + ((10:ℤ)) * (2*π) := by push_cast; ring
    rw [e, Real.sin_add_int_mul_two_pi]
    exact Real.sin_neg_of_neg_of_neg_pi_lt
      (by linarith [Real.pi_gt_three]) (by linarith [Real.pi_lt_d2])
  have hmain : MainGo.planeBearing 0 0 60 0 = π := by
    simp only [MainGo.planeBearing]
    norm_num
    have harg : atan2 0 (Real.sin 60) = π := by
      unfold atan2
      rw [show (⟨Real.sin 60, 0⟩ : ℂ) = ((Real.sin 60 : ℝ) : ℂ) from rfl,
        Complex.arg_ofReal_of_neg hsin60]
    rw [harg, if_neg (not_lt.mpr Real.pi_pos.le)]
  have hspec : specBearingFormula 0 0 60 0 = 0 := by
    simp only [specBearingFormula]
    norm_num
    have hsinpos : 0 < Real.sin (60 * π / 180) :=
      Real.sin_pos_of_pos_of_lt_pi (by positivity) (by linarith [Real.pi_pos])
    have harg : atan2 0 (Real.sin (60 * π / 180)) = 0 := by
      unfold atan2
      rw [show (⟨Real.sin (60 * π / 180), 0⟩ : ℂ) =
          ((Real.sin (60 * π / 180) : ℝ) : ℂ) from rfl,
        Complex.arg_ofReal_of_nonneg hsinpos.le]
    rw [harg, if_neg (lt_irrefl 0)]
  rw [hmain, hspec]
  exact Real.pi_ne_zero

/-- C1 amended: the server snapshot's `SetPlaneLocationDetails`
(`unnamed/part_001`/`part_002`) converts the latitudes and the longitude
difference to radians, applies the forward-azimuth formula, and
normalises the `atan2` result into `[0, 2π)` by adding `2π` exactly when
it is negative — it coincides with the spec's formula and always returns
a bearing in `[0, 2π)`; the `main.go` snapshot omits the radian
conversion (the documented historical bug) and disagrees with that
formula. -/
theorem C1_srv_bearing_matches_spec_formula :
    ∀ mLat mLon pLat pLon : ℝ,
    Srv.planeBearing mLat mLon pLat pLon = specBearingFormula mLat mLon pLat pLon ∧
    0 ≤ Srv.planeBearing mLat mLon pLat pLon ∧
    Srv.planeBearing mLat mLon pLat pLon < 2*π := by
  intro a b c d
  have key : ∀ yy xx : ℝ,
      0 ≤ (if atan2 yy xx < 0 then atan2 yy xx + 2*π else atan2 yy xx) ∧
      (if atan2 yy xx < 0 then atan2 yy xx + 2*π else atan2 yy xx) < 2*π :=
    fun yy xx => normalize_range _ (atan2_bounds yy xx).1 (atan2_bounds yy xx).2
  exact ⟨rfl, (key _ _).1, (key _ _).2⟩

/-! ## C8 — aircraft paint conditions -/

/-- C8: in `renderPlanes`, an aircraft whose flight code is in the
visibility set (the sweep membership computed by the tick handler) is
painted at its computed screen position if and only if its distance from
the observer is at most the radar range, the screen position passes the
grid bounds check, and the position is closer than `maxR` (the plotting
radius, to which `ctx.r` is set by `renderRadar`) to the grid centre in
Euclidean distance; otherwise the buffer is returned unchanged. -/
theorem C8_renderPlanes_paint_conditions :
    ∀ (ctx : Radar.radarContext) (northOffset aspectRatio : ℝ) (radarRange : ℤ)
      (visiblePlanes : List String) (buffer : Grid) (p : plane),
    ctx.r = ctx.maxR →
    Radar.renderPlanesOne ctx northOffset aspectRatio radarRange visiblePlanes buffer p =
      if p.FlightCode ∈ visiblePlanes ∧
          (p.DistanceFromObserver : ℝ) ≤ (radarRange : ℝ) ∧
          Radar.inBounds ctx.width ctx.height
            (Radar.planePosX ctx northOffset radarRange p)
            (Radar.planePosY ctx northOffset aspectRatio radarRange p) = true ∧
          Real.sqrt
            (((Radar.planePosX ctx northOffset radarRange p - ctx.cx : ℤ) : ℝ) *
                ((Radar.planePosX ctx northOffset radarRange p - ctx.cx : ℤ) : ℝ) +
              ((Radar.planePosY ctx northOffset aspectRatio radarRange p - ctx.cy : ℤ) : ℝ) *
                ((Radar.planePosY ctx northOffset aspectRatio radarRange p - ctx.cy : ℤ) : ℝ)) <
            ctx.maxR
      then
        Radar.setCell buffer
          (Radar.planePosY ctx northOffset aspectRatio radarRange p)
          (Radar.planePosX ctx northOffset radarRange p)
          (Radar.planePaint p (Radar.cellAt buffer
            (Radar.planePosY ctx northOffset aspectRatio radarRange p)
            (Radar.planePosX ctx northOffset radarRange p)))
      else buffer := by
  intro ctx no ar rr vis g p hr
  simp only [Radar.renderPlanesOne]
  by_cases hv : p.FlightCode ∈ vis
  · rw [if_pos hv]
    by_cases hd : (p.DistanceFromObserver : ℝ) > (rr : ℝ)
    · rw [if_pos hd, if_neg]
      rintro ⟨-, hb, -, -⟩
      exact absurd hb (not_le.mpr hd)
    · rw [if_neg hd]
      have hle : (p.DistanceFromObserver : ℝ) ≤ (rr : ℝ) := not_lt.mp hd
      split_ifs with hc hrhs hrhs
      · rfl
      · exact absurd ⟨hv, hle, hc.1, hr ▸ hc.2⟩ hrhs
      · refine absurd ⟨hrhs.2.2.1, ?_⟩ hc
        rw [hr]
        exact hrhs.2.2.2
      · rfl
  · rw [if_neg hv, if_neg (fun hc => hv hc.1)]

/-- C8 witness: the paint characterisation instantiated at a concrete
context (`r = maxR = 14`), a visible aircraft at distance `8` of a range
of `10`. -/
theorem C8_renderPlanes_paint_conditions_witness :
    (Radar.radarContext.mk 10 10 40 40 14 14).r =
      (Radar.radarContext.mk 10 10 40 40 14 14).maxR ∧
    Radar.renderPlanesOne ⟨10, 10, 40, 40, 14, 14⟩ 0 1 10 ["A"] []
        ⟨"AAA", "A", 0, 0, 0, 0, 8⟩ =
      if ("A" : String) ∈ (["A"] : List String) ∧
          (((⟨"AAA", "A", 0, 0, 0, 0, 8⟩ : plane).DistanceFromObserver : ℝ) ≤ ((10:ℤ) : ℝ)) ∧
          Radar.inBounds (Radar.radarContext.mk 10 10 40 40 14 14).width
            (Radar.radarContext.mk 10 10 40 40 14 14).height
            (Radar.planePosX ⟨10, 10, 40, 40, 14, 14⟩ 0 10 ⟨"AAA", "A", 0, 0, 0, 0, 8⟩)
            (Radar.planePosY ⟨10, 10, 40, 40, 14, 14⟩ 0 1 10 ⟨"AAA", "A", 0, 0, 0, 0, 8⟩) = true ∧
          Real.sqrt
            (((Radar.planePosX ⟨10, 10, 40, 40, 14, 14⟩ 0 10 ⟨"AAA", "A", 0, 0, 0, 0, 8⟩ -
                  (Radar.radarContext.mk 10 10 40 40 14 14).cx : ℤ) : ℝ) *
                ((Radar.planePosX ⟨10, 10, 40, 40, 14, 14⟩ 0 10 ⟨"AAA", "A", 0, 0, 0, 0, 8⟩ -
                  (Radar.radarContext.mk 10 10 40 40 14 14).cx : ℤ) : ℝ) +
              ((Radar.planePosY ⟨10, 10, 40, 40, 14, 14⟩ 0 1 10 ⟨"AAA", "A", 0, 0, 0, 0, 8⟩ -
                  (Radar.radarContext.mk 10 10 40 40 14 14).cy : ℤ) : ℝ) *
                ((Radar.planePosY ⟨10, 10, 40, 40, 14, 14⟩ 0 1 10 ⟨"AAA", "A", 0, 0, 0, 0, 8⟩ -
                  (Radar.radarContext.mk 10 10 40 40 14 14).cy : ℤ) : ℝ)) <
            (Radar.radarContext.mk 10 10 40 40 14 14).maxR
      then
        Radar.setCell []
          (Radar.planePosY ⟨10, 10, 40, 40, 14, 14⟩ 0 1 10 ⟨"AAA", "A", 0, 0, 0, 0, 8⟩)
          (Radar.planePosX ⟨10, 10, 40, 40, 14, 14⟩ 0 10 ⟨"AAA", "A", 0, 0, 0, 0, 8⟩)
          (Radar.planePaint ⟨"AAA", "A", 0, 0, 0, 0, 8⟩ (Radar.cellAt []
            (Radar.planePosY ⟨10, 10, 40, 40, 14, 14⟩ 0 1 10 ⟨"AAA", "A", 0, 0, 0, 0, 8⟩)
            (Radar.planePosX ⟨10, 10, 40, 40, 14, 14⟩ 0 10 ⟨"AAA", "A", 0, 0, 0, 0, 8⟩)))
      else [] :=
  ⟨rfl, C8_renderPlanes_paint_conditions ⟨10, 10, 40, 40, 14, 14⟩ 0 1 10 ["A"] []
    ⟨"AAA", "A", 0, 0, 0, 0, 8⟩ rfl⟩

/-! ## C10 — table-row update -/

/-- When no row carries the identifier, the index loop leaves the
accumulator unchanged. -/
theorem lastMatchIndexAux_of_no_match (id : String) (rows : List Row) :
    ∀ (i acc : ℤ), (∀ r ∈ rows, r.headI ≠ id) →
    lastMatchIndexAux id rows i acc = acc := by
  induction rows with
  | nil => intro i acc _; rfl
  | cons r rs ih =>
      intro i acc h
      simp only [lastMatchIndexAux]
      rw [if_neg (h r (List.mem_cons_self r rs))]
      exact ih _ _ (fun z hz => h z (List.mem_cons_of_mem _ hz))

/-- When the rows split as `pre ++ x :: post` with `x` carrying the
identifier and nothing in `post` carrying it, the index loop returns the
position of `x`. -/
theorem lastMatchIndexAux_of_last_match (id : String) (x : Row) (post : List Row)
    (hx : x.headI = id) (hpost : ∀ r ∈ post, r.headI ≠ id) :
    ∀ (pre : List Row) (i acc : ℤ),
    lastMatchIndexAux id (pre ++ x :: post) i acc = i + pre.length := by
  intro pre
  induction pre with
  | nil =>
      intro i acc
      simp only [List.nil_append, lastMatchIndexAux]
      rw [if_pos hx, lastMatchIndexAux_of_no_match id post _ _ hpost]
      simp
  | cons q qs ih =>
      intro i acc
      simp only [List.cons_append, lastMatchIndexAux, List.append_eq]
      rw [ih _ _]
      push_cast [List.length_cons]
      ring

/-- A list whose `countP` is `1` splits around its unique satisfying
element. -/
theorem countP_eq_one_decomp {α : Type} (pr : α → Bool) (l : List α)
    (h : l.countP pr = 1) :
    ∃ pre x post, l = pre ++ x :: post ∧ pr x = true ∧
      pre.countP pr = 0 ∧ post.countP pr = 0 := by
  induction l with
  | nil => simp at h
  | cons a t ih =>
      rw [List.countP_cons] at h
      by_cases ha : pr a
      · refine ⟨[], a, t, rfl, ha, by simp, ?_⟩
        simpa [ha] using h
      · simp only [ha, if_false, add_zero] at h
        obtain ⟨pre, x, post, rfl, hx, hpre, hpost⟩ := ih h
        exact ⟨a :: pre, x, post, rfl, hx, by simp [List.countP_cons, ha, hpre], hpost⟩

/-- C10: if the table contains at most one row for `p`'s identifier,
then after `UpdatePlaneRow` there is exactly one row with that
identifier, it is the freshly built row for `p` and it sits first, and
the rows of every other identifier are preserved in order. -/
theorem C10_updatePlaneRow :
    ∀ (fmt4 : ℚ → String) (rows : List Row) (p : plane),
    rows.countP (fun r => decide (r.headI = p.Hex)) ≤ 1 →
    (MainGo.UpdatePlaneRow fmt4 rows p).countP (fun r => decide (r.headI = p.Hex)) = 1 ∧
    (MainGo.UpdatePlaneRow fmt4 rows p).head? = some (MainGo.mkRow fmt4 p) ∧
    (MainGo.UpdatePlaneRow fmt4 rows p).filter (fun r => decide (r.headI ≠ p.Hex)) =
      rows.filter (fun r => decide (r.headI ≠ p.Hex)) := by
  intro fmt4 rows p hcount
  have hnewhead : (MainGo.mkRow fmt4 p).headI = p.Hex := rfl
  rcases Nat.le_one_iff_eq_zero_or_eq_one.mp hcount with h0 | h1
  · have hno : ∀ r ∈ rows, r.headI ≠ p.Hex := by
      intro r hrm
      have := List.countP_eq_zero.mp h0 r hrm
      simpa using this
    have hidx : lastMatchIndexAux p.Hex rows 0 (-1) = -1 :=
      lastMatchIndexAux_of_no_match _ _ _ _ hno
    have hupd : MainGo.UpdatePlaneRow fmt4 rows p = MainGo.mkRow fmt4 p :: rows := by
      simp only [MainGo.UpdatePlaneRow, hidx]
      simp
    rw [hupd]
    refine ⟨?_, rfl, ?_⟩
    · rw [List.countP_cons]
      simp [hnewhead, h0]
    · rw [List.filter_cons]
      simp [hnewhead]
  · obtain ⟨pre, x, post, hrows, hx, hpre, hpost⟩ :=
      countP_eq_one_decomp (fun r => decide (r.headI = p.Hex)) rows h1
    have hxeq : x.headI = p.Hex := by simpa using hx
    have hpostne : ∀ r ∈ post, r.headI ≠ p.Hex := by
      intro r hrm
      have := List.countP_eq_zero.mp hpost r hrm
      simpa using this
    have hidx : lastMatchIndexAux p.Hex rows 0 (-1) = pre.length := by
      rw [hrows, lastMatchIndexAux_of_last_match p.Hex x post hxeq hpostne pre 0 (-1)]
      simp
    have hne : ((pre.length : ℤ)) ≠ -1 := by omega
    have hupd : MainGo.UpdatePlaneRow fmt4 rows p =
        MainGo.mkRow fmt4 p :: (pre ++ post) := by
      simp only [MainGo.UpdatePlaneRow, hidx]
      rw [if_neg hne]
      congr 1
      rw [Int.toNat_natCast, hrows, List.take_left,
        show pre.length + 1 = (pre ++ [x]).length by simp,
        show pre ++ x :: post = (pre ++ [x]) ++ post by simp,
        List.drop_left]
    rw [hupd]
    refine ⟨?_, rfl, ?_⟩
    · rw [List.countP_cons, List.countP_append]
      simp [hnewhead, hpre, hpost]
    · rw [hrows, List.filter_cons, List.filter_append, List.filter_append,
        List.filter_cons]
      simp [hnewhead, hxeq]

/-- C10 witness: updating a two-row table in which the second row
carries the aircraft's identifier. -/
theorem C10_updatePlaneRow_witness :
    ([["B", "x"], ["A", "y"]] : List Row).countP
        (fun r => decide (r.headI = (plane.mk "A" "A" 0 0 0 0 0).Hex)) ≤ 1 ∧
    ((MainGo.UpdatePlaneRow (fun _ => "n") [["B", "x"], ["A", "y"]]
          (plane.mk "A" "A" 0 0 0 0 0)).countP
        (fun r => decide (r.headI = (plane.mk "A" "A" 0 0 0 0 0).Hex)) = 1 ∧
      (MainGo.UpdatePlaneRow (fun _ => "n") [["B", "x"], ["A", "y"]]
          (plane.mk "A" "A" 0 0 0 0 0)).head? =
        some (MainGo.mkRow (fun _ => "n") (plane.mk "A" "A" 0 0 0 0 0)) ∧
      (MainGo.UpdatePlaneRow (fun _ => "n") [["B", "x"], ["A", "y"]]
          (plane.mk "A" "A" 0 0 0 0 0)).filter
          (fun r => decide (r.headI ≠ (plane.mk "A" "A" 0 0 0 0 0).Hex)) =
        ([["B", "x"], ["A", "y"]] : List Row).filter
          (fun r => decide (r.headI ≠ (plane.mk "A" "A" 0 0 0 0 0).Hex))) :=
  ⟨by decide, C10_updatePlaneRow (fun _ => "n") [["B", "x"], ["A", "y"]]
    (plane.mk "A" "A" 0 0 0 0 0) (by decide)⟩
